import Mathlib

/-!
Verification of the stepper-motor positioning firmware
(`src/stepper_positioning.ino`) against its natural-language
specification.

The firmware is single-threaded and fully synchronous, so it is embedded
shallowly as pure state-transformer functions.  Machine integers (`long`
on the target) are modelled as unbounded `Int`, following the spec's data
model ("signed integer ... no bound other than machine integer range");
all quantities exercised by the claims are far from any word boundary.
Digital pin output and serial output are recorded as an event trace
(`Ev`); the busy-wait microsecond delays of the firmware have no
observable effect in this model and are dropped.  The limit-switch input
read in the homing loop is abstracted as an environment `limit : Nat →
Bool` giving the value of the `i`-th read (`true` = switch active, i.e.
the pin reads LOW through its pull-up).
-/

namespace Stepper

/-- STEP output pin (pin 3 in the source). -/
def STEP_PIN : Nat := 3

/-- DIR output pin (pin 4 in the source). -/
def DIR_PIN : Nat := 4

/-- EN output pin (pin 5 in the source, active LOW). -/
def EN_PIN : Nat := 5

/-- Steps per revolution of the motor (`STEPS_PER_REV = 200`). -/
def STEPS_PER_REV : Int := 200

/-- Lower bound for the step delay (`MIN_DELAY_US = 500`). -/
def MIN_DELAY_US : Int := 500

/-- Upper bound for the step delay (`MAX_DELAY_US = 10000`). -/
def MAX_DELAY_US : Int := 10000

/-- Observable events of the firmware: digital pin writes and serial
output lines.  Each `Serial.print`/`println` group producing one output
line in the source becomes one `serial` event. -/
inductive Ev where
  | pinWrite (pin : Nat) (level : Bool)
  | serial (line : String)
deriving Repr, DecidableEq

/-- The firmware's mutable state: the globals `current_position`,
`target_position`, `step_delay_us`, together with the levels of the
latched output pins.  `enabled` records that the EN line is at its
active (LOW) level; `dir_forward` records the DIR line level
(HIGH = forward). -/
structure MotorState where
  current_position : Int
  target_position : Int
  step_delay_us : Int
  enabled : Bool
  dir_forward : Bool
deriving Repr, DecidableEq

/-- State after `setup()`: positions 0, `step_delay_us = 1500`, and the
driver disabled (`disable_motor()` is called from `setup`); the DIR line
is at its reset level LOW (backward). -/
def initialState : MotorState :=
  { current_position := 0
    target_position := 0
    step_delay_us := 1500
    enabled := false
    dir_forward := false }

/-- `step_once()`: one STEP pulse (drive HIGH, then LOW).  The
microsecond delays are not observable in this model and the function
touches no state. -/
def step_once : List Ev :=
  [Ev.pinWrite STEP_PIN true, Ev.pinWrite STEP_PIN false]

/-- `set_direction(forward)`: drive DIR HIGH for forward, LOW for
backward. -/
def set_direction (forward : Bool) (s : MotorState) : MotorState × List Ev :=
  ({ s with dir_forward := forward }, [Ev.pinWrite DIR_PIN forward])

/-- `enable_motor()`: drive EN LOW (active). -/
def enable_motor (s : MotorState) : MotorState × List Ev :=
  ({ s with enabled := true }, [Ev.pinWrite EN_PIN false])

/-- `disable_motor()`: drive EN HIGH (inactive). -/
def disable_motor (s : MotorState) : MotorState × List Ev :=
  ({ s with enabled := false }, [Ev.pinWrite EN_PIN true])

/-- The stepping `for` loop of `move_to`: `n` iterations of `step_once()`
followed by incrementing (forward) or decrementing (backward)
`current_position`. -/
def move_steps (forward : Bool) : Nat → MotorState → MotorState × List Ev
  | 0, s => (s, [])
  | n + 1, s =>
    let s1 := { s with current_position :=
      if forward then s.current_position + 1 else s.current_position - 1 }
    let r := move_steps forward n s1
    (r.1, step_once ++ r.2)

/-- `move_to(target)`: enable the motor, early-return when already at the
target, otherwise set the direction, announce the move, step
`|target - current_position|` times, report the final position and
disable the motor.  Note the early-return path does not pass through
`disable_motor()`. -/
def move_to (target : Int) (s : MotorState) : MotorState × List Ev :=
  let r1 := enable_motor s
  let steps_to_move := target - r1.1.current_position
  if steps_to_move = 0 then
    (r1.1, r1.2 ++ [Ev.serial "Already at target."])
  else
    let r2 := set_direction (decide (steps_to_move > 0)) r1.1
    let abs_steps := steps_to_move.natAbs
    let e3 := [Ev.serial ("Moving " ++ toString abs_steps ++
      (if steps_to_move > 0 then " steps FORWARD..." else " steps BACKWARD..."))]
    let r4 := move_steps (decide (steps_to_move > 0)) abs_steps r2.1
    let e5 := [Ev.serial ("Done. Position: " ++ toString r4.1.current_position)]
    let r6 := disable_motor r4.1
    (r6.1, r1.2 ++ r2.2 ++ e3 ++ r4.2 ++ e5 ++ r6.2)

/-- `move_relative(steps)`: `target = current_position + steps`, then
`move_to(target)`. -/
def move_relative (steps : Int) (s : MotorState) : MotorState × List Ev :=
  move_to (s.current_position + steps) s

/-- The `while (digitalRead(LIMIT_PIN) == HIGH)` loop of
`home_sequence()`: while the switch is inactive, step once and decrement
`current_position`; when the position drops below `-10000`, report the
homing failure, disable the motor and return (third component `true`
means this abort path was taken). -/
def home_loop (limit : Nat → Bool) (i : Nat) (s : MotorState) :
    MotorState × List Ev × Bool :=
  if limit i then
    (s, [], false)
  else
    let s1 := { s with current_position := s.current_position - 1 }
    if s1.current_position < -10000 then
      let r2 := disable_motor s1
      (r2.1, step_once ++ [Ev.serial "ERROR: Limit switch not found. Stopping."] ++ r2.2, true)
    else
      let r3 := home_loop limit (i + 1) s1
      (r3.1, step_once ++ r3.2.1, r3.2.2)
termination_by (s.current_position + 10001).toNat
decreasing_by
  simp only [MotorState.mk.injEq] at *
  omega

/-- `home_sequence()`: announce, enable, set direction backward, run the
search loop; on success reset `current_position` and `target_position`
to 0, report success and disable; on abort the loop has already reported
and disabled. -/
def home_sequence (limit : Nat → Bool) (s : MotorState) : MotorState × List Ev :=
  let e0 := [Ev.serial "Homing..."]
  let r1 := enable_motor s
  let r2 := set_direction false r1.1
  let r3 := home_loop limit 0 r2.1
  if r3.2.2 then
    (r3.1, e0 ++ r1.2 ++ r2.2 ++ r3.2.1)
  else
    let s4 := { r3.1 with current_position := 0, target_position := 0 }
    let r5 := disable_motor s4
    (r5.1, e0 ++ r1.2 ++ r2.2 ++ r3.2.1 ++
      [Ev.serial "Home found. Position reset to 0."] ++ r5.2)

/-- Character class accepted as leading whitespace by `atol` (via
`isspace`). -/
def isSpaceC (c : Char) : Bool :=
  c = ' ' || c = '\t' || c = '\n' || c = '\x0b' || c = '\x0c' || c = '\r'

/-- Leading-whitespace skipping of `atol`. -/
def skipSpaces : List Char → List Char
  | [] => []
  | c :: cs => if isSpaceC c then skipSpaces cs else c :: cs

/-- Digit-prefix accumulation of `atol`: consume decimal digits from the
front, stopping at the first non-digit. -/
def parseDigits : List Char → Nat → Nat
  | [], acc => acc
  | c :: cs, acc =>
    if c.isDigit then parseDigits cs (acc * 10 + (c.toNat - 48)) else acc

/-- Arduino `String::toInt()` (= C `atol`): skip leading whitespace, an
optional sign, then a maximal run of decimal digits; an input with no
digit at that point yields 0. -/
def toIntArd (l : List Char) : Int :=
  match skipSpaces l with
  | [] => 0
  | c :: rest =>
    if c = '-' then -(parseDigits rest 0 : Int)
    else if c = '+' then (parseDigits rest 0 : Int)
    else (parseDigits (c :: rest) 0 : Int)

/-- Decimal rendering with one fractional digit of a quantity given in
tenths, as `Serial.print(x, 1)` shows the (exact-in-tenths) angle
value. -/
def render1dp (tenths : Int) : String :=
  (if tenths < 0 then "-" else "") ++
    toString (tenths.natAbs / 10) ++ "." ++ toString (tenths.natAbs % 10)

/-- `print_status()`: report position, whole revolutions
(`current_position / STEPS_PER_REV`, C truncating division), the angle
`(current_position % STEPS_PER_REV) * (360.0 / STEPS_PER_REV)` (C
truncating remainder; the float value is an exact multiple of 1.8°, kept
here in tenths of a degree), and the step delay.  No state change. -/
def print_status (s : MotorState) : MotorState × List Ev :=
  let degrees_tenths : Int := Int.tmod s.current_position STEPS_PER_REV * 18
  let revs : Int := Int.tdiv s.current_position STEPS_PER_REV
  (s, [Ev.serial "\n--- Motor Status ---",
       Ev.serial ("  Position (steps)  : " ++ toString s.current_position),
       Ev.serial ("  Position (revs)   : " ++ toString revs),
       Ev.serial ("  Angle             : " ++ render1dp degrees_tenths ++ "°"),
       Ev.serial ("  Step delay        : " ++ toString s.step_delay_us ++ " us"),
       Ev.serial "--------------------\n"])

/-- Narrowing of a C `long` value into the 16-bit signed `int` of the
AVR target (Uno/Nano), wrapping modulo 2^16 into [-32768, 32767]; the
assignment `int spd = cmd.substring(6).toInt()` in the SPEED branch
performs this conversion on the parsed `long`. -/
def toInt16 (v : Int) : Int :=
  (v + 32768) % 65536 - 32768

/-- `handle_command(cmd)`: the command dispatcher, applied to the
already trimmed and upper-cased line (`loop()` normalizes before
calling it).  `limit` is the limit-switch input environment consumed by
a `HOME` command.  In the SPEED branch the parsed value is narrowed to
the AVR's 16-bit `int` before the range check, as the source's
declaration of `spd` does. -/
def handle_command (limit : Nat → Bool) (cmd : List Char) (s : MotorState) :
    MotorState × List Ev :=
  if ("MOVE ".toList).isPrefixOf cmd then
    move_relative (toIntArd (cmd.drop 5)) s
  else if ("GOTO ".toList).isPrefixOf cmd then
    move_to (toIntArd (cmd.drop 5)) s
  else if cmd = "HOME".toList then
    home_sequence limit s
  else if ("SPEED ".toList).isPrefixOf cmd then
    let spd := toInt16 (toIntArd (cmd.drop 6))
    if MIN_DELAY_US ≤ spd ∧ spd ≤ MAX_DELAY_US then
      ({ s with step_delay_us := spd },
       [Ev.serial ("Speed set: " ++ toString spd ++ " us/step")])
    else
      (s, [Ev.serial "Speed out of range (500–10000 us)"])
  else if cmd = "STATUS".toList then
    print_status s
  else
    (s, [Ev.serial "Unknown command. Use: MOVE, GOTO, HOME, SPEED, STATUS"])

/-- Trace of `n` STEP pulses. -/
def stepTrace : Nat → List Ev
  | 0 => []
  | n + 1 => Ev.pinWrite STEP_PIN true :: Ev.pinWrite STEP_PIN false :: stepTrace n

/-- Number of step pulses (rising STEP edges) in a trace. -/
def stepCount (es : List Ev) : Nat :=
  es.countP (fun e => e == Ev.pinWrite STEP_PIN true)

theorem stepCount_append (a b : List Ev) :
    stepCount (a ++ b) = stepCount a + stepCount b :=
  List.countP_append _ a b

theorem stepCount_stepTrace (n : Nat) : stepCount (stepTrace n) = n := by
  induction n with
  | zero => rfl
  | succ n ih =>
    simp only [stepTrace]
    show stepCount (step_once ++ stepTrace n) = n + 1
    rw [stepCount_append, ih]
    show 1 + n = n + 1
    omega

theorem move_steps_eq (f : Bool) (n : Nat) (s : MotorState) :
    move_steps f n s =
      ({ s with current_position :=
          if f then s.current_position + n else s.current_position - n },
       stepTrace n) := by
  induction n generalizing s with
  | zero =>
    simp only [move_steps, stepTrace]
    cases f <;> simp
  | succ n ih =>
    simp only [move_steps, ih, stepTrace]
    cases f <;>
      simp only [if_true, if_false, Bool.false_eq_true, Prod.mk.injEq,
        MotorState.mk.injEq, and_true, true_and, List.cons_append,
        List.nil_append, step_once] <;>
      omega

/-- Full characterization of `move_to`: a call at the current target
enables the motor and early-returns (leaving it enabled); any other call
enables, sets direction, emits the full step trace, ends at the target
and disables. -/
theorem move_to_eq (t : Int) (s : MotorState) :
    move_to t s =
      if t = s.current_position then
        ({ s with enabled := true },
         [Ev.pinWrite EN_PIN false, Ev.serial "Already at target."])
      else
        ({ s with
             current_position := t
             enabled := false
             dir_forward := decide (s.current_position < t) },
         Ev.pinWrite EN_PIN false ::
           Ev.pinWrite DIR_PIN (decide (s.current_position < t)) ::
           Ev.serial ("Moving " ++ toString (t - s.current_position).natAbs ++
             (if s.current_position < t then " steps FORWARD..."
              else " steps BACKWARD...")) ::
           (stepTrace (t - s.current_position).natAbs ++
            [Ev.serial ("Done. Position: " ++ toString t),
             Ev.pinWrite EN_PIN true])) := by
  by_cases h : t - s.current_position = 0
  · have ht : t = s.current_position := by omega
    simp only [move_to, enable_motor, ht, sub_self, if_pos, if_true,
      List.cons_append, List.nil_append]
  · have ht : ¬ t = s.current_position := by omega
    have hpos : (if s.current_position < t then
        s.current_position + ((t - s.current_position).natAbs : Int)
        else s.current_position - ((t - s.current_position).natAbs : Int)) = t := by
      split <;> omega
    simp only [move_to, enable_motor, set_direction, disable_motor,
      move_steps_eq, gt_iff_lt, Int.sub_pos, decide_eq_true_eq,
      if_neg h, if_neg ht, List.cons_append, List.nil_append, List.append_assoc,
      hpos]

/-- Search-loop characterization, success case: when the `k`-th
limit-switch read is the first active one and the safety bound is not
reached first, the loop exits having stepped `k` times backward. -/
theorem home_loop_success (limit : Nat → Bool) :
    ∀ (k i : Nat) (s : MotorState), limit (i + k) = true →
      (∀ j, j < k → limit (i + j) = false) →
      -10000 ≤ s.current_position - k →
      home_loop limit i s =
        ({ s with current_position := s.current_position - k }, stepTrace k, false) := by
  intro k
  induction k with
  | zero =>
    intro i s hk _ _
    rw [home_loop]
    simp only [Nat.add_zero] at hk
    simp [hk, stepTrace]
  | succ k ih =>
    intro i s hk hj hpos
    have h0 : limit i = false := by
      have := hj 0 (by omega)
      simpa using this
    rw [home_loop]
    simp only [h0, Bool.false_eq_true, if_false]
    have hnb : ¬ ({ s with current_position := s.current_position - 1 }.current_position < -10000) := by
      show ¬ (s.current_position - 1 < -10000)
      omega
    rw [if_neg hnb]
    rw [ih (i + 1) { s with current_position := s.current_position - 1 }
      (by have : i + 1 + k = i + (k + 1) := by omega
          rw [this]; exact hk)
      (by intro j hjk
          have : i + 1 + j = i + (j + 1) := by omega
          rw [this]; exact hj (j + 1) (by omega))
      (by show -10000 ≤ s.current_position - 1 - (k : Int); omega)]
    simp only [Prod.mk.injEq, MotorState.mk.injEq]
    repeat' apply And.intro
    all_goals dsimp only
    all_goals first | rfl | omega

/-- Search-loop characterization, timeout case: with the switch never
active, starting from position `-10000 + n` the loop steps `n + 1`
times, reports the failure, disables the motor and aborts with the
position left at `-10001`. -/
theorem home_loop_never :
    ∀ (n i : Nat) (s : MotorState), s.current_position = -10000 + n →
      home_loop (fun _ => false) i s =
        ({ s with current_position := -10001, enabled := false },
         stepTrace (n + 1) ++
           [Ev.serial "ERROR: Limit switch not found. Stopping.",
            Ev.pinWrite EN_PIN true], true) := by
  intro n
  induction n with
  | zero =>
    intro i s hp
    rw [home_loop]
    simp only [Bool.false_eq_true, if_false, disable_motor]
    rw [if_pos (by show s.current_position - 1 < -10000; omega)]
    simp only [Prod.mk.injEq, MotorState.mk.injEq]
    repeat' apply And.intro
    all_goals dsimp only
    all_goals first | rfl | omega
  | succ n ih =>
    intro i s hp
    rw [home_loop]
    simp only [Bool.false_eq_true, if_false]
    rw [if_neg (by show ¬ (s.current_position - 1 < -10000); omega)]
    rw [ih (i + 1) { s with current_position := s.current_position - 1 }
      (by show s.current_position - 1 = -10000 + (n : Int); omega)]
    simp only [Prod.mk.injEq, MotorState.mk.injEq]
    repeat' apply And.intro
    all_goals dsimp only
    all_goals rfl

/-- When the search loop takes its abort (timeout) path, it has passed
through `disable_motor`, so the resulting state is disabled. -/
theorem home_loop_abort_disabled :
    ∀ (n : Nat) (limit : Nat → Bool) (i : Nat) (s : MotorState),
      (s.current_position + 10001).toNat ≤ n →
      (home_loop limit i s).2.2 = true →
      (home_loop limit i s).1.enabled = false := by
  intro n
  induction n with
  | zero =>
    intro limit i s hn
    rw [home_loop]
    cases hli : limit i with
    | true => simp
    | false =>
      simp only [Bool.false_eq_true, if_false, disable_motor]
      rw [if_pos (by show s.current_position - 1 < -10000; omega)]
      simp
  | succ n ih =>
    intro limit i s hn
    rw [home_loop]
    cases hli : limit i with
    | true => simp
    | false =>
      simp only [Bool.false_eq_true, if_false, disable_motor]
      by_cases hb : ({ s with current_position := s.current_position - 1 }.current_position < -10000)
      · rw [if_pos hb]
        simp
      · rw [if_neg hb]
        intro habort
        exact ih limit (i + 1) { s with current_position := s.current_position - 1 }
          (by have hb' : ¬ (s.current_position - 1 < -10000) := hb
              show (s.current_position - 1 + 10001).toNat ≤ n
              omega) habort

/-- `home_sequence` always returns with the motor disabled: the success
path ends in `disable_motor`, and the abort path disabled the motor
inside the loop. -/
theorem home_sequence_disabled (limit : Nat → Bool) (s : MotorState) :
    (home_sequence limit s).1.enabled = false := by
  unfold home_sequence
  simp only [enable_motor, set_direction]
  by_cases h :
      (home_loop limit 0 { s with enabled := true, dir_forward := false }).2.2 = true
  · rw [if_pos h]
    exact home_loop_abort_disabled _ limit 0 _ le_rfl h
  · rw [if_neg h]
    rfl

/-- Integer division "truncating toward zero" as the spec words it:
divide the magnitudes and reattach the sign. -/
def spec_trunc_div (a b : Int) : Int :=
  a.sign * b.sign * (a.natAbs / b.natAbs : Nat)

/-- The spec's "sign-preserving modulo consistent with the source's
remainder semantics": the remainder left by the truncating division. -/
def spec_trunc_mod (a b : Int) : Int :=
  a - b * spec_trunc_div a b

theorem tdiv_eq_spec_trunc_div (a : Int) :
    Int.tdiv a STEPS_PER_REV = spec_trunc_div a STEPS_PER_REV := by
  rcases a with m | m
  · cases m with
    | zero => decide
    | succ m =>
      show Int.ofNat ((m + 1) / 200) = spec_trunc_div (Int.ofNat (m + 1)) 200
      show Int.ofNat ((m + 1) / 200) = 1 * 1 * (((m + 1) / 200 : Nat) : Int)
      simp
  · show -(Int.ofNat ((m + 1) / 200)) = spec_trunc_div (Int.negSucc m) 200
    show -(Int.ofNat ((m + 1) / 200)) = -1 * 1 * (((m + 1) / 200 : Nat) : Int)
    simp

theorem tmod_eq_spec_trunc_mod (a : Int) :
    Int.tmod a STEPS_PER_REV = spec_trunc_mod a STEPS_PER_REV := by
  have h := Int.tdiv_add_tmod a STEPS_PER_REV
  rw [tdiv_eq_spec_trunc_div a] at h
  unfold spec_trunc_mod
  omega

/-- Whether a character list begins with a decimal digit. -/
def hasDigitStart : List Char → Bool
  | [] => false
  | c :: _ => c.isDigit

/-- Whether `atol` finds a valid numeric prefix: after leading
whitespace and an optional sign there is at least one digit. -/
def numericPrefixValid (l : List Char) : Bool :=
  match skipSpaces l with
  | [] => false
  | c :: rest =>
    if c = '-' then hasDigitStart rest
    else if c = '+' then hasDigitStart rest
    else hasDigitStart (c :: rest)

theorem parseDigits_no_digit (c : Char) (cs : List Char) (acc : Nat)
    (h : c.isDigit = false) : parseDigits (c :: cs) acc = acc := by
  simp [parseDigits, h]

theorem toIntArd_eq_zero (l : List Char) (h : numericPrefixValid l = false) :
    toIntArd l = 0 := by
  unfold numericPrefixValid at h
  unfold toIntArd
  cases hs : skipSpaces l with
  | nil => rfl
  | cons c rest =>
    rw [hs] at h
    dsimp only at h ⊢
    by_cases hneg : c = '-'
    · rw [if_pos hneg] at h ⊢
      cases rest with
      | nil => rfl
      | cons d ds =>
        simp only [hasDigitStart] at h
        rw [parseDigits_no_digit d ds 0 h]
        rfl
    · rw [if_neg hneg] at h ⊢
      by_cases hplus : c = '+'
      · rw [if_pos hplus] at h ⊢
        cases rest with
        | nil => rfl
        | cons d ds =>
          simp only [hasDigitStart] at h
          rw [parseDigits_no_digit d ds 0 h]
          rfl
      · rw [if_neg hplus] at h ⊢
        simp only [hasDigitStart] at h
        rw [parseDigits_no_digit c rest 0 h]
        rfl

/-- `move_to` always ends with `current_position = target` (also on the
no-op path, where target and position already agree). -/
theorem move_to_position (t : Int) (u : MotorState) :
    (move_to t u).1.current_position = t := by
  rw [move_to_eq]
  by_cases h : t = u.current_position
  · rw [if_pos h]
    exact h.symm
  · rw [if_neg h]

theorem isPrefixOf_append_self (p str : List Char) :
    p.isPrefixOf (p ++ str) = true := by
  induction p with
  | nil => cases str <;> rfl
  | cons a as ih => simp [List.isPrefixOf, ih]

/-- Dispatch of a line starting with "MOVE ". -/
theorem handle_command_move (limit : Nat → Bool) (s : MotorState)
    (str : List Char) :
    handle_command limit ("MOVE ".toList ++ str) s =
      move_relative (toIntArd str) s := by
  unfold handle_command
  rw [show ("MOVE ".toList ++ str).drop 5 = str from rfl]
  rw [if_pos (isPrefixOf_append_self _ str)]

/-- Dispatch of a line starting with "GOTO ". -/
theorem handle_command_goto (limit : Nat → Bool) (s : MotorState)
    (str : List Char) :
    handle_command limit ("GOTO ".toList ++ str) s =
      move_to (toIntArd str) s := by
  unfold handle_command
  rw [show ("GOTO ".toList ++ str).drop 5 = str from rfl]
  rw [if_neg (by
    rw [show ("MOVE ".toList).isPrefixOf ("GOTO ".toList ++ str) = false from rfl]
    simp)]
  rw [if_pos (isPrefixOf_append_self _ str)]

/-- Dispatch of a line starting with "SPEED ". -/
theorem handle_command_speed (limit : Nat → Bool) (s : MotorState)
    (str : List Char) :
    handle_command limit ("SPEED ".toList ++ str) s =
      if MIN_DELAY_US ≤ toInt16 (toIntArd str) ∧
          toInt16 (toIntArd str) ≤ MAX_DELAY_US then
        ({ s with step_delay_us := toInt16 (toIntArd str) },
         [Ev.serial ("Speed set: " ++ toString (toInt16 (toIntArd str)) ++
           " us/step")])
      else
        (s, [Ev.serial "Speed out of range (500–10000 us)"]) := by
  unfold handle_command
  rw [show ("SPEED ".toList ++ str).drop 6 = str from rfl]
  rw [if_neg (by
    rw [show ("MOVE ".toList).isPrefixOf ("SPEED ".toList ++ str) = false from rfl]
    simp)]
  rw [if_neg (by
    rw [show ("GOTO ".toList).isPrefixOf ("SPEED ".toList ++ str) = false from rfl]
    simp)]
  rw [if_neg (by
    intro h
    have hlen := congrArg List.length h
    simp [List.length_append] at hlen)]
  rw [if_pos (isPrefixOf_append_self _ str)]

/-- Claim C2, counterexample: a `move_to` call whose target equals the
current position does produce EN pin activity — it drives EN active and
returns with the motor enabled — contradicting the claim that no EN
activity occurs and the motor is not enabled. -/
theorem claim_C2_counterexample :
    (move_to 0 initialState).1.enabled = true ∧
      Ev.pinWrite EN_PIN false ∈ (move_to 0 initialState).2 := by
  decide

/-- Claim C2, amended: for every call `move_to(target)` with
`target = current_position`, the operation first enables the motor (one
EN-active write), reports "Already at target." and returns without any
DIR or STEP pin activity and without changing any position state, but
with the motor left enabled; in particular a second consecutive
`move_to` with the same target toggles no DIR or STEP pins. -/
theorem claim_C2_noop_move (t : Int) (s : MotorState)
    (h : t = s.current_position) :
    move_to t s =
      ({ s with enabled := true },
       [Ev.pinWrite EN_PIN false, Ev.serial "Already at target."]) := by
  rw [move_to_eq, if_pos h]

/-- Witness for the amended C2 at a concrete no-op move. -/
theorem claim_C2_witness :
    move_to 0 initialState =
      ({ initialState with enabled := true },
       [Ev.pinWrite EN_PIN false, Ev.serial "Already at target."]) :=
  claim_C2_noop_move 0 initialState rfl

/-- Claim C4: for every integer `d` and state, `move_relative d` ends
with `current_position` shifted by exactly `d`, and a `move_relative d`
followed by `move_relative (-d)` restores the original position. -/
theorem claim_C4_move_relative (d : Int) (s : MotorState) :
    (move_relative d s).1.current_position = s.current_position + d ∧
    (move_relative (-d) (move_relative d s).1).1.current_position =
      s.current_position := by
  constructor
  · unfold move_relative
    exact move_to_position _ s
  · unfold move_relative
    rw [move_to_position, move_to_position]
    ring

/-- Claim C5, counterexample: the parsed value 66036 lies outside
[500, 10000], yet SPEED 66036 is accepted — the assignment to the
16-bit `int spd` wraps 66036 to 500, the range check passes and
`step_delay_us` becomes 500 — so the command does not update exactly
when the parsed value lies in the interval. -/
theorem claim_C5_counterexample :
    toIntArd ("66036".toList) = 66036 ∧
    ¬ (MIN_DELAY_US ≤ (66036 : Int) ∧ (66036 : Int) ≤ MAX_DELAY_US) ∧
    (handle_command (fun _ => false) ("SPEED 66036".toList)
        initialState).1.step_delay_us = 500 := by
  decide

/-- Claim C5, amended: the parsed value is first narrowed to the AVR's
16-bit signed `int` (wrapping modulo 2^16); the `SPEED` command stores
that narrowed value exactly when it lies in the closed interval
`[MIN_DELAY_US, MAX_DELAY_US]` = [500, 10000] (499 and 10001, unchanged
by the narrowing, are rejected, but e.g. 66036 wraps to 500 and is
accepted); on rejection it reports the range error and the state (in
particular `step_delay_us`) is unchanged. -/
theorem claim_C5_speed_range (limit : Nat → Bool) (s : MotorState)
    (str : List Char) :
    handle_command limit ("SPEED ".toList ++ str) s =
      if MIN_DELAY_US ≤ toInt16 (toIntArd str) ∧
          toInt16 (toIntArd str) ≤ MAX_DELAY_US then
        ({ s with step_delay_us := toInt16 (toIntArd str) },
         [Ev.serial ("Speed set: " ++ toString (toInt16 (toIntArd str)) ++
           " us/step")])
      else
        (s, [Ev.serial "Speed out of range (500–10000 us)"]) :=
  handle_command_speed limit s str

/-- Claim C10: the keywords are only recognized with a following space;
the bare lines "MOVE", "GOTO" and "SPEED" fall through to the
unknown-command branch, leaving the state unchanged. -/
theorem claim_C10_bare_keywords (limit : Nat → Bool) (s : MotorState) :
    handle_command limit ("MOVE".toList) s =
      (s, [Ev.serial "Unknown command. Use: MOVE, GOTO, HOME, SPEED, STATUS"]) ∧
    handle_command limit ("GOTO".toList) s =
      (s, [Ev.serial "Unknown command. Use: MOVE, GOTO, HOME, SPEED, STATUS"]) ∧
    handle_command limit ("SPEED".toList) s =
      (s, [Ev.serial "Unknown command. Use: MOVE, GOTO, HOME, SPEED, STATUS"]) :=
  ⟨rfl, rfl, rfl⟩

/-- Claim C8: any line matching none of the five command forms falls to
the unknown-command branch: the message is emitted and the state (all
fields) is returned unchanged. -/
theorem claim_C8_unknown_command (limit : Nat → Bool) (s : MotorState)
    (cmd : List Char)
    (h1 : ¬ ("MOVE ".toList).isPrefixOf cmd = true)
    (h2 : ¬ ("GOTO ".toList).isPrefixOf cmd = true)
    (h3 : ¬ cmd = "HOME".toList)
    (h4 : ¬ ("SPEED ".toList).isPrefixOf cmd = true)
    (h5 : ¬ cmd = "STATUS".toList) :
    handle_command limit cmd s =
      (s, [Ev.serial "Unknown command. Use: MOVE, GOTO, HOME, SPEED, STATUS"]) := by
  unfold handle_command
  rw [if_neg h1, if_neg h2, if_neg h3, if_neg h4, if_neg h5]

/-- Witness for C8 at the concrete unknown line "FOO". -/
theorem claim_C8_witness :
    handle_command (fun _ => false) ("FOO".toList) initialState =
      (initialState,
       [Ev.serial "Unknown command. Use: MOVE, GOTO, HOME, SPEED, STATUS"]) :=
  claim_C8_unknown_command (fun _ => false) initialState ("FOO".toList)
    (by decide) (by decide) (by decide) (by decide) (by decide)

/-- Claim C9: an argument with no valid numeric prefix parses to 0, so
"MOVE <s>" dispatches `move_relative 0`; the same parser serves "GOTO"
(dispatching `move_to 0`) and "SPEED" (0 is out of range, so the delay
is unchanged). -/
theorem claim_C9_lenient_numeric_parse (limit : Nat → Bool) (s : MotorState)
    (str : List Char) (h : numericPrefixValid str = false) :
    toIntArd str = 0 ∧
    handle_command limit ("MOVE ".toList ++ str) s = move_relative 0 s ∧
    handle_command limit ("GOTO ".toList ++ str) s = move_to 0 s ∧
    (handle_command limit ("SPEED ".toList ++ str) s).1.step_delay_us =
      s.step_delay_us := by
  have h0 := toIntArd_eq_zero str h
  refine ⟨h0, ?_, ?_, ?_⟩
  · rw [handle_command_move, h0]
  · rw [handle_command_goto, h0]
  · rw [handle_command_speed, h0]
    rw [if_neg (by decide)]

/-- Witness for C9 at the concrete non-numeric argument "ABC". -/
theorem claim_C9_witness :
    toIntArd ("ABC".toList) = 0 ∧
    handle_command (fun _ => false) ("MOVE ".toList ++ "ABC".toList) initialState =
      move_relative 0 initialState ∧
    handle_command (fun _ => false) ("GOTO ".toList ++ "ABC".toList) initialState =
      move_to 0 initialState ∧
    (handle_command (fun _ => false) ("SPEED ".toList ++ "ABC".toList) initialState).1.step_delay_us =
      initialState.step_delay_us :=
  claim_C9_lenient_numeric_parse (fun _ => false) initialState ("ABC".toList)
    (by decide)

/-- Claim C1, counterexample: after the command "MOVE 0" completes and
control returns to the command loop, the EN line is still active — the
no-op early-return of `move_to` skips `disable_motor` — contradicting
the claimed invariant that the driver is de-energized after every
command. -/
theorem claim_C1_counterexample :
    (handle_command (fun _ => false) ("MOVE 0".toList) initialState).1.enabled
      = true := rfl

/-- Claim C1, amended: `disable_motor` runs at the end of every stepping
move and of homing (success and abort paths), so those commands return
with the EN line inactive; but a MOVE/GOTO whose target equals the
current position enables the motor and returns with it still enabled,
and SPEED/STATUS/unknown commands leave the enable state as they found
it. -/
theorem claim_C1_enable_state (limit : Nat → Bool) (cmd : List Char)
    (s : MotorState) :
    (handle_command limit cmd s).1.enabled =
      (if ("MOVE ".toList).isPrefixOf cmd then
        decide (toIntArd (cmd.drop 5) = 0)
      else if ("GOTO ".toList).isPrefixOf cmd then
        decide (toIntArd (cmd.drop 5) = s.current_position)
      else if cmd = "HOME".toList then false
      else s.enabled) := by
  unfold handle_command
  by_cases h1 : ("MOVE ".toList).isPrefixOf cmd = true
  · rw [if_pos h1, if_pos h1]
    unfold move_relative
    rw [move_to_eq]
    by_cases hz : toIntArd (cmd.drop 5) = 0
    · rw [if_pos (by omega :
        s.current_position + toIntArd (cmd.drop 5) = s.current_position)]
      simp [hz]
    · rw [if_neg (by omega :
        ¬ s.current_position + toIntArd (cmd.drop 5) = s.current_position)]
      simp [hz]
  · rw [if_neg h1, if_neg h1]
    by_cases h2 : ("GOTO ".toList).isPrefixOf cmd = true
    · rw [if_pos h2, if_pos h2]
      rw [move_to_eq]
      by_cases hz : toIntArd (cmd.drop 5) = s.current_position
      · rw [if_pos hz]
        simp [hz]
      · rw [if_neg hz]
        simp [hz]
    · rw [if_neg h2, if_neg h2]
      by_cases h3 : cmd = "HOME".toList
      · rw [if_pos h3, if_pos h3]
        exact home_sequence_disabled limit s
      · rw [if_neg h3, if_neg h3]
        by_cases h4 : ("SPEED ".toList).isPrefixOf cmd = true
        · rw [if_pos h4]
          dsimp only
          split <;> rfl
        · rw [if_neg h4]
          by_cases h5 : cmd = "STATUS".toList
          · rw [if_pos h5]
            rfl
          · rw [if_neg h5]

/-- Claim C6: when the limit switch first reads active at the `k`-th
loop iteration, before the safety bound would trigger, homing stops
stepping after exactly `k` pulses, sets both positions to 0, disables
the motor and reports success. -/
theorem claim_C6_home_success (limit : Nat → Bool) (s : MotorState) (k : Nat)
    (hk : limit k = true) (hbefore : ∀ j, j < k → limit j = false)
    (hbound : -10000 ≤ s.current_position - k) :
    home_sequence limit s =
      ({ s with
           current_position := 0
           target_position := 0
           enabled := false
           dir_forward := false },
       [Ev.serial "Homing...", Ev.pinWrite EN_PIN false,
        Ev.pinWrite DIR_PIN false] ++
         stepTrace k ++
         [Ev.serial "Home found. Position reset to 0.",
          Ev.pinWrite EN_PIN true]) := by
  unfold home_sequence
  simp only [enable_motor, set_direction]
  rw [home_loop_success limit k 0 { s with enabled := true, dir_forward := false }
    (by simpa using hk)
    (by intro j hj; simpa using hbefore j hj)
    (by show -10000 ≤ s.current_position - (k : Int); exact hbound)]
  simp [disable_motor]

/-- Witness for C6: the switch becomes active at the fourth read
(index 3), so homing succeeds after exactly 3 steps. -/
theorem claim_C6_witness :
    home_sequence (fun i => decide (i = 3)) initialState =
      ({ initialState with
           current_position := 0
           target_position := 0
           enabled := false
           dir_forward := false },
       [Ev.serial "Homing...", Ev.pinWrite EN_PIN false,
        Ev.pinWrite DIR_PIN false] ++
         stepTrace 3 ++
         [Ev.serial "Home found. Position reset to 0.",
          Ev.pinWrite EN_PIN true]) :=
  claim_C6_home_success (fun i => decide (i = 3)) initialState 3
    (by decide)
    (by intro j hj
        simp only [decide_eq_false_iff_not]
        omega)
    (by decide)

/-- Claim C3: with the limit switch never active, homing from the
initial state aborts after exactly 10001 step pulses (the bound being
`current_position < -10000`), reports the homing failure, returns with
the motor disabled and the position left at the partial value `-10001`
(not reset to 0), and the interpreter keeps processing commands (shown
here on a subsequent STATUS, which runs and leaves the state as the
abort left it). -/
theorem claim_C3_homing_timeout :
    (home_sequence (fun _ => false) initialState).1.current_position = -10001 ∧
    ¬ (home_sequence (fun _ => false) initialState).1.current_position = 0 ∧
    (home_sequence (fun _ => false) initialState).1.enabled = false ∧
    stepCount (home_sequence (fun _ => false) initialState).2 = 10001 ∧
    Ev.serial "ERROR: Limit switch not found. Stopping." ∈
      (home_sequence (fun _ => false) initialState).2 ∧
    (handle_command (fun _ => false) ("STATUS".toList)
        (home_sequence (fun _ => false) initialState).1).1 =
      (home_sequence (fun _ => false) initialState).1 := by
  have hseq : home_sequence (fun _ => false) initialState =
      ({ initialState with
           current_position := -10001
           enabled := false
           dir_forward := false },
       Ev.serial "Homing..." :: Ev.pinWrite EN_PIN false ::
         Ev.pinWrite DIR_PIN false ::
         (stepTrace 10001 ++
           [Ev.serial "ERROR: Limit switch not found. Stopping.",
            Ev.pinWrite EN_PIN true])) := by
    unfold home_sequence
    simp only [enable_motor, set_direction]
    rw [home_loop_never 10000 0
      { initialState with enabled := true, dir_forward := false }
      (by decide)]
    simp
  rw [hseq]
  refine ⟨rfl, by decide, rfl, ?_, by simp, rfl⟩
  show stepCount
    ((Ev.serial "Homing..." :: Ev.pinWrite EN_PIN false ::
      Ev.pinWrite DIR_PIN false :: []) ++
      (stepTrace 10001 ++
        [Ev.serial "ERROR: Limit switch not found. Stopping.",
         Ev.pinWrite EN_PIN true])) = 10001
  rw [stepCount_append, stepCount_append, stepCount_stepTrace]
  rfl

/-- Claim C7: the STATUS command dispatches to `print_status`, which
leaves the state unchanged and reports position, revolutions, angle and
step delay, where the revolutions equal the spec's truncating-toward-zero
division of `current_position` by `STEPS_PER_REV` and the angle (shown in
exact tenths of a degree) equals the spec's sign-preserving remainder
times `360 / STEPS_PER_REV` degrees. -/
theorem claim_C7_status_report (limit : Nat → Bool) (s : MotorState) :
    handle_command limit ("STATUS".toList) s = print_status s ∧
    (print_status s).1 = s ∧
    (print_status s).2 =
      [Ev.serial "\n--- Motor Status ---",
       Ev.serial ("  Position (steps)  : " ++ toString s.current_position),
       Ev.serial ("  Position (revs)   : " ++
         toString (spec_trunc_div s.current_position STEPS_PER_REV)),
       Ev.serial ("  Angle             : " ++
         render1dp (spec_trunc_mod s.current_position STEPS_PER_REV * 18) ++ "°"),
       Ev.serial ("  Step delay        : " ++ toString s.step_delay_us ++ " us"),
       Ev.serial "--------------------\n"] ∧
    ((Int.tmod s.current_position STEPS_PER_REV * 18 : Int) : ℚ) / 10 =
      ((spec_trunc_mod s.current_position STEPS_PER_REV : Int) : ℚ) *
        (360 / (STEPS_PER_REV : ℚ)) := by
  refine ⟨rfl, rfl, ?_, ?_⟩
  · unfold print_status
    rw [tdiv_eq_spec_trunc_div, tmod_eq_spec_trunc_mod]
  · rw [tmod_eq_spec_trunc_mod]
    show ((spec_trunc_mod s.current_position STEPS_PER_REV * 18 : Int) : ℚ) / 10 = _
    unfold STEPS_PER_REV
    push_cast
    ring

end Stepper
